import Mathlib

/-!
Shallow embedding of the hive-server authentication subsystem
(`svh/commands/db/token.py`, `svh/commands/db/security.py`,
`svh/commands/server/db_api/auth.py`, `svh/commands/server/db_api/main.py`,
`svh/commands/server/client_api/auth.py`,
`svh/commands/server/client_api/util.py`) together with proofs about the
session/token claims.  Python strings are modelled as `List Char`, byte
strings as `List Nat` (each element < 256), clock readings as `Nat`
seconds, and database rows as explicit structures.
-/

namespace SVH

/-- Python `str` values are modelled as lists of characters. -/
abbrev Str := List Char

/-- Byte strings are lists of naturals below 256. -/
abbrev Bytes := List Nat

/-- Truncation to a 32-bit word, used wherever the Python code relies on
implicit 32-bit wraparound inside `hashlib.sha256`. -/
def u32 (n : Nat) : Nat := n % 4294967296

/-- 32-bit rotate right (on words already below `2 ^ 32`). -/
def rotr (x n : Nat) : Nat := u32 (x / 2 ^ n + x % 2 ^ n * 2 ^ (32 - n))

/-- 32-bit bitwise complement (on words below `2 ^ 32`). -/
def wnot (x : Nat) : Nat := 4294967295 - x

/-- SHA-256 `Ch` function. -/
def shaCh (e f g : Nat) : Nat := Nat.xor (Nat.land e f) (Nat.land (wnot e) g)

/-- SHA-256 `Maj` function. -/
def shaMaj (a b c : Nat) : Nat :=
  Nat.xor (Nat.xor (Nat.land a b) (Nat.land a c)) (Nat.land b c)

/-- SHA-256 big sigma-0. -/
def bigS0 (a : Nat) : Nat := Nat.xor (Nat.xor (rotr a 2) (rotr a 13)) (rotr a 22)

/-- SHA-256 big sigma-1. -/
def bigS1 (e : Nat) : Nat := Nat.xor (Nat.xor (rotr e 6) (rotr e 11)) (rotr e 25)

/-- SHA-256 small sigma-0. -/
def smallS0 (x : Nat) : Nat := Nat.xor (Nat.xor (rotr x 7) (rotr x 18)) (x / 2 ^ 3)

/-- SHA-256 small sigma-1. -/
def smallS1 (x : Nat) : Nat := Nat.xor (Nat.xor (rotr x 17) (rotr x 19)) (x / 2 ^ 10)

/-- The first eight primes (sources of the SHA-256 initial hash words). -/
def primes8 : List Nat := [2, 3, 5, 7, 11, 13, 17, 19]

/-- The first sixty-four primes (sources of the SHA-256 round constants). -/
def primes64 : List Nat :=
  [2, 3, 5, 7, 11, 13, 17, 19, 23, 29, 31, 37, 41, 43, 47, 53,
   59, 61, 67, 71, 73, 79, 83, 89, 97, 101, 103, 107, 109, 113, 127, 131,
   137, 139, 149, 151, 157, 163, 167, 173, 179, 181, 191, 193, 197, 199, 211, 223,
   227, 229, 233, 239, 241, 251, 257, 263, 269, 271, 277, 281, 283, 293, 307, 311]

/-- Integer cube root by binary search over 40 bits (enough for the
inputs `p * 2 ^ 96` with `p < 512` used below). -/
def icbrt (n : Nat) : Nat :=
  (List.range 40).foldr (fun b acc =>
    let c := acc + 2 ^ b
    if c ^ 3 ≤ n then c else acc) 0

/-- SHA-256 round constants: first 32 bits of the fractional parts of the
cube roots of the first 64 primes. -/
def shaK : List Nat := primes64.map (fun p => u32 (icbrt (p * 2 ^ 96)))

/-- SHA-256 initial hash value: first 32 bits of the fractional parts of
the square roots of the first 8 primes. -/
def shaH0 : List Nat := primes8.map (fun p => u32 (Nat.sqrt (p * 2 ^ 64)))

/-- Interpret a 64-byte block as sixteen big-endian 32-bit words. -/
def words16 (b : Bytes) : List Nat :=
  (List.range 16).map (fun i =>
    b.getD (4 * i) 0 * 16777216 + b.getD (4 * i + 1) 0 * 65536 +
    b.getD (4 * i + 2) 0 * 256 + b.getD (4 * i + 3) 0)

/-- Extend the sixteen message words to the sixty-four-entry schedule. -/
def scheduleExtend (w : List Nat) : List Nat :=
  (List.range 48).foldl (fun w i =>
    w ++ [u32 (smallS1 (w.getD (i + 14) 0) + w.getD (i + 9) 0 +
               smallS0 (w.getD (i + 1) 0) + w.getD i 0)]) w

/-- One SHA-256 round on the eight-word working state. -/
def compressStep (st : List Nat) (kw : Nat × Nat) : List Nat :=
  match st with
  | [a, b, c, d, e, f, g, h] =>
    let t1 := u32 (h + bigS1 e + shaCh e f g + kw.1 + kw.2)
    let t2 := u32 (bigS0 a + shaMaj a b c)
    [u32 (t1 + t2), a, b, c, u32 (d + t1), e, f, g]
  | st => st

/-- Process one 64-byte block. -/
def compressBlock (h : List Nat) (block : Bytes) : List Nat :=
  let ws := scheduleExtend (words16 block)
  let st := (shaK.zip ws).foldl compressStep h
  (h.zip st).map (fun p => u32 (p.1 + p.2))

/-- Big-endian 8-byte encoding of a bit length. -/
def be8 (n : Nat) : Bytes := (List.range 8).map (fun i => n / 2 ^ (8 * (7 - i)) % 256)

/-- SHA-256 padding: `0x80`, zeros to 56 mod 64, then the 64-bit length. -/
def sha256Pad (m : Bytes) : Bytes :=
  m ++ [128] ++ List.replicate ((119 - m.length % 64) % 64) 0 ++ be8 (8 * m.length)

/-- Split a (padded) message into 64-byte blocks; the fuel argument makes
the recursion structural (it strictly dominates the number of blocks). -/
def chunks64Go : Nat → Bytes → List Bytes
  | 0, _ => []
  | fuel + 1, l => if l = [] then [] else l.take 64 :: chunks64Go fuel (l.drop 64)

/-- Split a (padded) message into 64-byte blocks. -/
def chunks64 (l : Bytes) : List Bytes := chunks64Go (l.length + 1) l

/-- Full SHA-256, from bytes to the 32-byte digest
(model of Python `hashlib.sha256(...).digest()`). -/
def sha256 (m : Bytes) : Bytes :=
  let hh := (chunks64 (sha256Pad m)).foldl compressBlock shaH0
  hh.foldr (fun w acc =>
    w / 16777216 % 256 :: w / 65536 % 256 :: w / 256 % 256 :: w % 256 :: acc) []

/-- HMAC-SHA256 (model of Python `hmac.new(key, msg, hashlib.sha256)`):
keys longer than the 64-byte block are first hashed, then padded with
zeros; inner pad `0x36`, outer pad `0x5c`. -/
def hmacSha256 (key msg : Bytes) : Bytes :=
  let k := if 64 < key.length then sha256 key else key
  let k0 := k ++ List.replicate (64 - k.length) 0
  sha256 ((k0.map (fun b => Nat.xor b 92)) ++ sha256 ((k0.map (fun b => Nat.xor b 54)) ++ msg))

/-- UTF-8 encoding of the (ASCII) strings handled by this subsystem;
all subjects, secrets and digits involved are code points below 128. -/
def strBytes (s : Str) : Bytes := s.map Char.toNat

/-- The sixteen lowercase hex digits, as used by Python `hexdigest()`. -/
def hexChars : List Char := ("0123456789abcdef").data

/-- Hex digit character for a nibble. -/
def hexDigit (n : Nat) : Char := hexChars.getD n '0'

/-- Lowercase hex encoding of a byte string (Python `hexdigest()`). -/
def bytesToHex (bs : Bytes) : Str :=
  bs.foldr (fun b acc => hexDigit (b / 16) :: hexDigit (b % 16) :: acc) []

/-- `hmac.new(key, msg, hashlib.sha256).hexdigest()` on strings. -/
def hexdigestHmac (key msg : Str) : Str := bytesToHex (hmacSha256 (strBytes key) (strBytes msg))

/-- The server secret: `token.py` reads `SVH_AUTH_SECRET` from the
environment with default `dev-change-me`; the model fixes the default. -/
def SECRET : Str := ("dev-change-me").data

/-- Worker for `natDigits`, structurally recursive on a fuel bound. -/
def natDigitsGo : Nat → Nat → Str
  | 0, _ => []
  | fuel + 1, n =>
    if n < 10 then [hexDigit n] else natDigitsGo fuel (n / 10) ++ [hexDigit (n % 10)]

/-- Decimal digit string of a natural number (Python `str(int)` for the
nonnegative timestamps used by the codec). -/
def natDigits (n : Nat) : Str := natDigitsGo (n + 1) n

/-- `token.py` `make_token`: the timestamp defaults to the clock both when
absent and when it equals `0`, because Python `ts or int(time.time())`
treats `0` as falsy.  The token is `user_id.ts.sig` with
`sig = HMAC-SHA256(secret, "user_id:ts")` hex-encoded. -/
def make_token (user_id : Str) (ts : Option Nat) (now : Nat) : Str :=
  let t := match ts with
    | none => now
    | some v => if v = 0 then now else v
  user_id ++ ('.' :: natDigits t) ++
    ('.' :: hexdigestHmac SECRET (user_id ++ (':' :: natDigits t)))

/-- Split a character list at every occurrence of `c`
(Python `str.split(".")` with no limit). -/
def splitCh (c : Char) : Str → List Str
  | [] => [[]]
  | x :: xs =>
    let r := splitCh c xs
    if x = c then [] :: r
    else
      match r with
      | [] => [[x]]
      | y :: ys => (x :: y) :: ys

/-- Python `int(...)` restricted to the plain digit strings produced by
`make_token` (the full builtin also strips whitespace and accepts signs
and underscores, none of which this codec ever emits). -/
def parsePyNat (s : Str) : Option Nat :=
  if s.isEmpty then none
  else if s.all Char.isDigit then
    some (s.foldl (fun a c => a * 10 + (c.toNat - 48)) 0)
  else none

/-- `token.py` `parse_token`: split on dots; exactly three parts with an
integral middle yield `(user, ts, sig)`, anything else is `None` (the
`try`/`except` swallows unpacking and `int` failures). -/
def parse_token (tok : Str) : Option (Str × Nat × Str) :=
  match splitCh '.' tok with
  | [u, t, s] => (parsePyNat t).map (fun n => (u, n, s))
  | _ => none

/-! ### The in-process session cache (`token.py` `_Cache`)

The mutex only serializes access; the sequential semantics is the plain
dictionary below.  The dictionary is modelled as an association list with
at most one entry per key (`set` replaces). -/

/-- Cache state: entries `token ↦ (subject, expires_at)`. -/
abbrev Cache := List (Str × Str × Nat)

/-- Dictionary lookup. -/
def cacheLookup : Cache → Str → Option (Str × Nat)
  | [], _ => none
  | e :: rest, k => if e.1 = k then some e.2 else cacheLookup rest k

/-- `_Cache.delete` / `dict.pop(k, None)`: remove a key, tolerating absence. -/
def cacheRemove (d : Cache) (k : Str) : Cache := d.filter (fun e => !(e.1 == k))

/-- `_Cache.set(k, v, ttl)`: store `(v, now + ttl)` under `k`, replacing
any previous entry. -/
def cacheSet (d : Cache) (k v : Str) (ttl now : Nat) : Cache :=
  (k, v, now + ttl) :: cacheRemove d k

/-- `_Cache.get(k)`: `None` on absence; if the stored expiry is strictly
below the clock (`exp < time.time()`) the entry is deleted and `None`
returned; otherwise the value is returned.  The pair carries the
possibly-evicted dictionary. -/
def cacheGet (d : Cache) (k : Str) (now : Nat) : Option Str × Cache :=
  match cacheLookup d k with
  | none => (none, d)
  | some (v, exp) => if exp < now then (none, cacheRemove d k) else (some v, d)

/-! ### Data model (`models.py`) and password vault (`security.py`) -/

/-- `models.py` `User` (credential columns only; `created_at` plays no
role in the claims).  The source stores the salt hex-encoded
(`salt_hex`) and decodes it with `bytes.fromhex` at verification time;
the model carries the decoded bytes. -/
structure User where
  id : Nat
  user_id : Str
  is_admin : Bool
  salt_bytes : Bytes
  pass_hash : Str
deriving DecidableEq

/-- `models.py` `AuthToken`: `token` carries a unique constraint
(`uq_auth_tokens_token`), `revoked_at` is nullable. -/
structure AuthToken where
  id : Nat
  user_id_fk : Nat
  token : Str
  issued_at : Nat
  revoked_at : Option Nat
deriving DecidableEq

/-- Database state: the two tables plus the `AuthToken` autoincrement
counter. -/
structure DB where
  users : List User
  tokens : List AuthToken
  nextId : Nat
deriving DecidableEq

/-- The digest half of `security.py` `hash_password`:
`sha256(salt + password).hexdigest()`. -/
def hash_password_digest (salt : Bytes) (password : Str) : Str :=
  bytesToHex (sha256 (salt ++ strBytes password))

/-- `security.py` `verify_password`: recompute the digest and compare
(`hmac.compare_digest` is equality, timing aside). -/
def verify_password (password : Str) (salt : Bytes) (hashHex : Str) : Bool :=
  hash_password_digest salt password == hashHex

/-- `select(User).where(User.user_id == uid)` (the column is unique). -/
def findUser (users : List User) (uid : Str) : Option User :=
  users.find? (fun u => u.user_id == uid)

/-- Rows of an account that are active (`revoked_at IS NULL`). -/
def activeRowsFor (tokens : List AuthToken) (fk : Nat) : List AuthToken :=
  tokens.filter (fun r => r.user_id_fk == fk && r.revoked_at.isNone)

/-- Rows of an account that are revoked (`revoked_at IS NOT NULL`). -/
def revokedRowsFor (tokens : List AuthToken) (fk : Nat) : List AuthToken :=
  tokens.filter (fun r => r.user_id_fk == fk && r.revoked_at.isSome)

/-! ### Identity tier (`db_api/auth.py`, `db_api/main.py`) -/

/-- Failures of the identity-tier login: a 401 for bad credentials, and
the `IntegrityError` raised at commit when the inserted token string
violates the unique constraint. -/
inductive LoginErr
  | invalidCredentials
  | uniqueViolation
deriving DecidableEq

/-- `db_api/auth.py` `login`: look the user up, verify the password, and
insert a new active row for a fresh `make_token(user.user_id)`.  The
source deliberately performs no revocation here (its comment: do not
revoke existing tokens, revocation happens only on explicit logout). -/
def db_login (db : DB) (user_id password : Str) (now : Nat) :
    Except LoginErr (Str × DB) :=
  match findUser db.users user_id with
  | none => .error .invalidCredentials
  | some user =>
    if verify_password password user.salt_bytes user.pass_hash then
      let token := make_token user.user_id none now
      if db.tokens.any (fun r => r.token == token) then .error .uniqueViolation
      else .ok (token,
        { db with
          tokens := db.tokens ++
            [{ id := db.nextId, user_id_fk := user.id, token := token,
               issued_at := now, revoked_at := none }],
          nextId := db.nextId + 1 })
    else .error .invalidCredentials

/-- Sort key of `ORDER BY revoked_at DESC, id DESC` on revoked rows. -/
def revKey (r : AuthToken) : Nat × Nat := (r.revoked_at.getD 0, r.id)

/-- Strict lexicographic comparison on the sort key. -/
def lexGt (a b : Nat × Nat) : Bool := b.1 < a.1 || (a.1 == b.1 && b.2 < a.2)

/-- The later of two rows under `(revoked_at desc, id desc)`. -/
def maxRev (a b : AuthToken) : AuthToken := if lexGt (revKey b) (revKey a) then b else a

/-- The first row of `ORDER BY revoked_at DESC, id DESC` over the revoked
rows of one account: the row the prune keeps (`ids[0]`). -/
def pruneKeep (tokens : List AuthToken) (fk : Nat) : Option AuthToken :=
  match revokedRowsFor tokens fk with
  | [] => none
  | r :: rs => some (rs.foldl maxRev r)

/-- The prune `DELETE`: among the revoked rows of the account, delete all
but the first under the order (the `len(ids) > 1` guard only skips a
no-op delete). -/
def pruneU (tokens : List AuthToken) (fk : Nat) : List AuthToken :=
  match pruneKeep tokens fk with
  | none => tokens
  | some keep =>
    tokens.filter (fun r =>
      !(r.user_id_fk == fk && r.revoked_at.isSome && r.id != keep.id))

/-- `db_api/auth.py` `logout`: find the row by token (idempotent no-op if
absent), mark it revoked if still active, prune, return `{ok: true}`.
The session has `autoflush=False` (`session.py`), so the ORM assignment
`row.revoked_at = utcnow()` stays pending until commit: the prune SELECT
runs against the pre-revoke snapshot, its deletions are applied to that
snapshot, and the pending revocation of `row` is flushed at commit (a
no-op if the prune already deleted the row). -/
def db_logout (db : DB) (tok : Str) (now : Nat) : DB :=
  match db.tokens.find? (fun r => r.token == tok) with
  | none => db
  | some row =>
    let afterDelete :=
      match pruneKeep db.tokens row.user_id_fk with
      | none => db.tokens
      | some keep =>
        db.tokens.filter (fun r =>
          !(r.user_id_fk == row.user_id_fk && r.revoked_at.isSome && r.id != keep.id))
    { db with
      tokens := afterDelete.map (fun r =>
        if r.id == row.id && r.revoked_at.isNone then { r with revoked_at := some now }
        else r) }

/-- The identity-tier `/auth/logout` endpoint always answers `{ok: true}`. -/
def db_logout_api (db : DB) (tok : Str) (now : Nat) : Bool × DB :=
  (true, db_logout db tok now)

/-- The bulk `UPDATE auth_tokens SET revoked_at = now WHERE revoked_at IS
NULL` executed on startup (a Core statement, immediately visible to the
queries that follow it in the transaction). -/
def revokeAllActive (tokens : List AuthToken) (now : Nat) : List AuthToken :=
  tokens.map (fun r => if r.revoked_at.isNone then { r with revoked_at := some now } else r)

/-- `SELECT DISTINCT user_id_fk FROM auth_tokens` after the bulk update. -/
def distinctFks (tokens : List AuthToken) : List Nat :=
  (tokens.map (fun r => r.user_id_fk)).dedup

/-- `db_api/main.py` `lifespan`, startup half: bulk-revoke every active
row, then prune each account present in the table. -/
def lifespanStartup (db : DB) (now : Nat) : DB :=
  let ts := revokeAllActive db.tokens now
  { db with tokens := (distinctFks ts).foldl pruneU ts }

/-- `db_api/main.py` `lifespan`, shutdown half: the function body contains
no statement after `yield`, so shutdown leaves the store untouched. -/
def lifespanShutdown (db : DB) : DB := db

/-! ### Edge tier (`client_api/util.py`, `client_api/auth.py`) -/

/-- The parts of an incoming HTTP request that the edge auth code reads:
the `Authorization` header and the `svh_token` cookie. -/
structure Request where
  authorization : Option Str
  cookie_svh_token : Option Str
deriving DecidableEq

/-- Python `str.lower()` on the ASCII header values involved. -/
def asciiLower (s : Str) : Str :=
  s.map (fun c => if 'A' ≤ c ∧ c ≤ 'Z' then Char.ofNat (c.toNat + 32) else c)

/-- `auth.split(" ", 1)[1]`: everything after the first space. -/
def afterFirstSpace (s : Str) : Str := (s.dropWhile (fun c => !(c == ' '))).drop 1

/-- Python `str.strip()` (whitespace on both ends). -/
def stripStr (s : Str) : Str :=
  ((s.dropWhile Char.isWhitespace).reverse.dropWhile Char.isWhitespace).reverse

/-- The raw header chars `"bearer "` used by the prefix test. -/
def bearerLit : Str := ("bearer ").data

/-- `util.py` `_token_from_request`: a lowercased `Authorization` header
starting with `bearer ` yields the stripped remainder (returned even when
empty); otherwise the cookie is used, with `tok or None` mapping an empty
cookie to `None`. -/
def token_from_request (req : Request) : Option Str :=
  let auth := req.authorization.getD []
  if bearerLit.isPrefixOf (asciiLower auth) then
    some (stripStr (afterFirstSpace auth))
  else
    match req.cookie_svh_token with
    | some tok => if tok = [] then none else some tok
    | none => none

/-- The `detail` strings of the edge 401/400 responses. -/
def msgNotAuthenticated : Str := ("Not authenticated").data

/-- The cache-miss message of `current_user` (capital `S` in the source). -/
def msgSessionExpired : Str := ("Session expired; please login again").data

/-- `current_user`'s message when the cached subject has no account row. -/
def msgAccountNotFound : Str := ("Account not found").data

/-- `client_api/util.py` `current_user`: resolve the token (falsy,
i.e. missing or empty, fails 401 `Not authenticated`), require a
non-falsy cache result — the guard is `if not user_id:`, so both a
`cache.get` miss and a cached *empty* subject fail 401 with
`msgSessionExpired`, and the token table of the durable store is never
consulted — then resolve the account by the cached subject id.  Errors
are `(status, detail)` pairs. -/
def current_user (req : Request) (cache : Cache) (db : DB) (now : Nat) :
    Except (Nat × Str) User :=
  match token_from_request req with
  | none => .error (401, msgNotAuthenticated)
  | some token =>
    if token = [] then .error (401, msgNotAuthenticated)
    else
      match (cacheGet cache token now).1 with
      | none => .error (401, msgSessionExpired)
      | some user_id =>
        if user_id = [] then .error (401, msgSessionExpired)
        else
          match findUser db.users user_id with
          | none => .error (401, msgAccountNotFound)
          | some u => .ok u

/-- `client_api/auth.py` `whoami`: `current_user` wrapped into
`{user_id, is_admin}`. -/
def whoami (req : Request) (cache : Cache) (db : DB) (now : Nat) :
    Except (Nat × Str) (Str × Bool) :=
  (current_user req cache db now).map (fun u => (u.user_id, u.is_admin))

/-- `client_api/auth.py` `logout` token resolution: body token, then
`Authorization: Bearer`, then the `svh_token` cookie, each skipped when
falsy (absent or empty after stripping). -/
def resolve_logout_token (bodyToken : Option Str) (req : Request) : Option Str :=
  let t1 : Option Str :=
    match bodyToken with
    | some t => if t = [] then none else some t
    | none => none
  match t1 with
  | some t => some t
  | none =>
    let auth := req.authorization.getD []
    let t2 : Option Str :=
      if bearerLit.isPrefixOf (asciiLower auth) then
        let s := stripStr (afterFirstSpace auth)
        if s = [] then none else some s
      else none
    match t2 with
    | some t => some t
    | none =>
      match req.cookie_svh_token with
      | some c => if c = [] then none else some c
      | none => none

/-- The HTTP-level outcome of a `_db_post` call to the identity tier:
`.ok` carries the decoded response, `.error` an `HTTPException` status
(upstream HTTP errors keep their code, network faults become 502). -/
abbrev DbCall (α : Type) := Except Nat α

/-- `client_api/auth.py` `logout`: resolve the token (`400 Token missing`
if none), post to the identity tier with the `HTTPException` absorbed by
`try ... except HTTPException: pass`, delete the cache entry, and answer
`{ok: true}`. -/
def edge_logout (bodyToken : Option Str) (req : Request)
    (dbOutcome : DbCall Unit) (cache : Cache) : Except (Nat × Str) (Bool × Cache) :=
  match resolve_logout_token bodyToken req with
  | none => .error (400, ("Token missing").data)
  | some token =>
    match dbOutcome with
    | .ok _ => .ok (true, cacheRemove cache token)
    | .error _ => .ok (true, cacheRemove cache token)

/-- `refresh`'s token resolution: `Bearer` header first; a falsy result
falls through to the raw `svh_token` cookie; a falsy final value is
`None` (the caller raises 401 on it). -/
def refresh_resolve (req : Request) : Option Str :=
  let auth := req.authorization.getD []
  let t1 : Option Str :=
    if bearerLit.isPrefixOf (asciiLower auth) then
      let s := stripStr (afterFirstSpace auth)
      if s = [] then none else some s
    else none
  match t1 with
  | some t => some t
  | none =>
    match req.cookie_svh_token with
    | some c => if c = [] then none else some c
    | none => none

/-- `client_api/auth.py` `refresh_token` after the `current_user`
dependency has resolved `user`.  `dbRes` is the identity-tier
`/auth/login` call made with an empty password: `.error` models a raised
exception, `.ok none` a response without a token; both take the local
fallback `make_token(user.user_id, new_ttl)` — the TTL constant 3600 is
passed in the timestamp position.  On success the old token is dropped
from the cache and the new one stored with TTL 3600. -/
def refresh_token (req : Request) (user : User) (cache : Cache)
    (dbRes : DbCall (Option Str)) (now : Nat) :
    Except (Nat × Str) (Str × Nat × Cache) :=
  match refresh_resolve req with
  | none => .error (401, ("Token missing for refresh").data)
  | some token =>
    match cacheGet cache token now with
    | (none, _) => .error (401, ("Invalid or expired token").data)
    | (some cached_uid, c1) =>
      if cached_uid = [] ∨ cached_uid ≠ user.user_id then
        .error (401, ("Invalid or expired token").data)
      else
        let new_token :=
          match dbRes with
          | .ok (some t) => t
          | .ok none => make_token user.user_id (some 3600) now
          | .error _ => make_token user.user_id (some 3600) now
        .ok (new_token, 3600,
          cacheSet (cacheRemove c1 token) new_token user.user_id 3600 now)

/-! ### Elementary facts about hex digits, decimal strings and `splitCh` -/

theorem hexDigit_ne_dot (n : Nat) : hexDigit n ≠ '.' := by
  unfold hexDigit hexChars
  rcases Nat.lt_or_ge n 16 with h | h
  · interval_cases n <;> decide
  · have hl : ((("0123456789abcdef").data : List Char)).length ≤ n := by
      have h16 : ((("0123456789abcdef").data : List Char)).length = 16 := rfl
      omega
    rw [List.getD_eq_default _ _ hl]
    decide

theorem hexDigit_isDigit (n : Nat) (h : n < 10) : (hexDigit n).isDigit = true := by
  interval_cases n <;> decide

theorem hexDigit_toNat (n : Nat) (h : n < 10) : (hexDigit n).toNat - 48 = n := by
  interval_cases n <;> decide

theorem bytesToHex_cons (b : Nat) (bs : Bytes) :
    bytesToHex (b :: bs) = hexDigit (b / 16) :: hexDigit (b % 16) :: bytesToHex bs := rfl

theorem bytesToHex_ne_dot (bs : Bytes) : ∀ c ∈ bytesToHex bs, c ≠ '.' := by
  induction bs with
  | nil => intro c hc; simp [bytesToHex] at hc
  | cons b bs ih =>
    intro c hc
    rw [bytesToHex_cons] at hc
    rcases List.mem_cons.mp hc with rfl | hc
    · exact hexDigit_ne_dot _
    · rcases List.mem_cons.mp hc with rfl | hc
      · exact hexDigit_ne_dot _
      · exact ih c hc

theorem natDigitsGo_congr (f1 : Nat) :
    ∀ f2 n, n < f1 → n < f2 → natDigitsGo f1 n = natDigitsGo f2 n := by
  induction f1 with
  | zero => intro f2 n h1 h2; omega
  | succ f ih =>
    intro f2 n h1 h2
    cases f2 with
    | zero => omega
    | succ g =>
      simp only [natDigitsGo]
      by_cases hn : n < 10
      · simp [hn]
      · have hdiv : n / 10 < n := Nat.div_lt_self (by omega) (by omega)
        simp only [if_neg hn]
        rw [ih g (n / 10) (by omega) (by omega)]

theorem natDigits_eq (n : Nat) :
    natDigits n = if n < 10 then [hexDigit n]
      else natDigits (n / 10) ++ [hexDigit (n % 10)] := by
  show natDigitsGo (n + 1) n = _
  simp only [natDigitsGo]
  by_cases hn : n < 10
  · simp [hn]
  · have hdiv : n / 10 < n := Nat.div_lt_self (by omega) (by omega)
    simp only [if_neg hn]
    rw [natDigitsGo_congr n (n / 10 + 1) (n / 10) (by omega) (by omega)]
    rfl

theorem natDigits_ne_nil (n : Nat) : natDigits n ≠ [] := by
  rw [natDigits_eq]
  by_cases h : n < 10 <;> simp [h]

theorem natDigits_chars (n : Nat) : ∀ c ∈ natDigits n, c.isDigit = true := by
  induction n using Nat.strong_induction_on with
  | _ n ih =>
    rw [natDigits_eq]
    by_cases h : n < 10
    · simp only [if_pos h]
      intro c hc
      rcases List.mem_singleton.mp hc with rfl
      exact hexDigit_isDigit n h
    · simp only [if_neg h]
      intro c hc
      rcases List.mem_append.mp hc with h1 | h2
      · exact ih (n / 10) (Nat.div_lt_self (by omega) (by omega)) c h1
      · rcases List.mem_singleton.mp h2 with rfl
        exact hexDigit_isDigit _ (Nat.mod_lt _ (by omega))

theorem natDigits_ne_dot (n : Nat) : ∀ c ∈ natDigits n, c ≠ '.' := by
  intro c hc heq
  subst heq
  have h2 := natDigits_chars n _ hc
  exact absurd h2 (by decide)

theorem natDigits_foldl (a n : Nat) :
    (natDigits n).foldl (fun a c => a * 10 + (c.toNat - 48)) a =
      a * 10 ^ (natDigits n).length + n := by
  induction n using Nat.strong_induction_on generalizing a with
  | _ n ih =>
    rw [natDigits_eq]
    by_cases h : n < 10
    · simp only [if_pos h, List.foldl_cons, List.foldl_nil, List.length_singleton]
      rw [hexDigit_toNat n h]
      ring
    · have hdiv : n / 10 < n := Nat.div_lt_self (by omega) (by omega)
      simp only [if_neg h, List.foldl_append, List.foldl_cons, List.foldl_nil,
        List.length_append, List.length_singleton]
      rw [ih (n / 10) hdiv a, hexDigit_toNat (n % 10) (Nat.mod_lt _ (by omega))]
      rw [pow_succ]
      have : 10 * (n / 10) + n % 10 = n := Nat.div_add_mod n 10
      ring_nf
      omega

theorem parsePyNat_natDigits (n : Nat) : parsePyNat (natDigits n) = some n := by
  unfold parsePyNat
  rw [if_neg (by simp [List.isEmpty_iff, natDigits_ne_nil n])]
  rw [if_pos (List.all_eq_true.mpr (fun c hc => natDigits_chars n c hc))]
  have := natDigits_foldl 0 n
  simp only [Nat.zero_mul, Nat.zero_add] at this
  rw [this]

theorem splitCh_ne_nil (c : Char) (s : Str) : splitCh c s ≠ [] := by
  induction s with
  | nil => simp [splitCh]
  | cons x xs ih =>
    simp only [splitCh]
    by_cases h : x = c
    · simp [h]
    · simp only [if_neg h]
      cases hr : splitCh c xs with
      | nil => simp
      | cons y ys => simp

theorem splitCh_no_sep (c : Char) (s : Str) (h : ∀ a ∈ s, a ≠ c) :
    splitCh c s = [s] := by
  induction s with
  | nil => rfl
  | cons x xs ih =>
    have hx : x ≠ c := h x (by simp)
    have hxs : ∀ a ∈ xs, a ≠ c := fun a ha => h a (by simp [ha])
    simp only [splitCh, if_neg hx, ih hxs]

theorem splitCh_append (c : Char) (u v : Str) (h : ∀ a ∈ u, a ≠ c) :
    splitCh c (u ++ c :: v) = u :: splitCh c v := by
  induction u with
  | nil => simp [splitCh]
  | cons x xs ih =>
    have hx : x ≠ c := h x (by simp)
    have hxs : ∀ a ∈ xs, a ≠ c := fun a ha => h a (by simp [ha])
    simp only [List.cons_append, splitCh, List.append_eq, ih hxs, if_neg hx]

/-! ### Round-trip facts about the token codec -/

/-- The signature string of a token, as emitted by `make_token`. -/
def tokenSig (uid : Str) (t : Nat) : Str :=
  hexdigestHmac SECRET (uid ++ (':' :: natDigits t))

theorem tokenSig_ne_dot (uid : Str) (t : Nat) : ∀ c ∈ tokenSig uid t, c ≠ '.' :=
  bytesToHex_ne_dot _

theorem make_token_none_parse (uid : Str) (now : Nat) (h : ∀ a ∈ uid, a ≠ '.') :
    parse_token (make_token uid none now) = some (uid, now, tokenSig uid now) := by
  show parse_token
      (uid ++ ('.' :: natDigits now) ++ ('.' :: tokenSig uid now)) = _
  unfold parse_token
  rw [List.append_assoc, List.cons_append]
  rw [splitCh_append '.' uid _ h]
  rw [splitCh_append '.' (natDigits now) _ (natDigits_ne_dot now)]
  rw [splitCh_no_sep '.' _ (tokenSig_ne_dot uid now)]
  simp [parsePyNat_natDigits]

theorem make_token_some_eq (uid : Str) (t now : Nat) (ht : t ≠ 0) :
    make_token uid (some t) now = make_token uid none t := by
  simp only [make_token, if_neg ht]

theorem make_token_some_parse (uid : Str) (t now : Nat) (h : ∀ a ∈ uid, a ≠ '.')
    (ht : t ≠ 0) :
    parse_token (make_token uid (some t) now) = some (uid, t, tokenSig uid t) := by
  rw [make_token_some_eq uid t now ht]
  exact make_token_none_parse uid t h

theorem make_token_now_inj (uid : Str) (h : ∀ a ∈ uid, a ≠ '.') (n1 n2 : Nat)
    (heq : make_token uid none n1 = make_token uid none n2) : n1 = n2 := by
  have h1 := make_token_none_parse uid n1 h
  have h2 := make_token_none_parse uid n2 h
  rw [heq, h2] at h1
  simp only [Option.some.injEq, Prod.mk.injEq] at h1
  exact h1.2.1.symm

/-! ### Claim C6 — token codec round trip -/

theorem make_token_dot_uid_parse (pre post : Str) (now : Nat)
    (hpre : ∀ a ∈ pre, a ≠ '.') (hpost : ∀ a ∈ post, a ≠ '.') :
    parse_token (make_token (pre ++ '.' :: post) none now) = none := by
  simp only [make_token]
  unfold parse_token
  rw [List.append_assoc, List.append_assoc, List.cons_append]
  rw [splitCh_append '.' pre _ hpre]
  rw [List.cons_append]
  rw [splitCh_append '.' post _ hpost]
  rw [splitCh_append '.' (natDigits now) _ (natDigits_ne_dot now)]
  rw [splitCh_no_sep '.' (hexdigestHmac SECRET (pre ++ '.' :: post ++ ':' :: natDigits now))
    (bytesToHex_ne_dot _)]

/-- Claim C6, counterexample: the round trip fails as soon as the subject
contains a dot — the split yields four parts and `parse_token` returns
`None` (`int("b")` would equally fail).  Concretely at `s = "a.b"`,
`t = 1`. -/
theorem parse_make_token_dot_subject :
    parse_token (make_token (("a.b").data) (some 1) 0) = none := by
  have h1 : (("a.b").data : Str) = ['a'] ++ '.' :: ['b'] := rfl
  rw [make_token_some_eq _ _ _ (by decide), h1]
  exact make_token_dot_uid_parse ['a'] ['b'] 1 (by decide) (by decide)

/-- Claim C6 (amended): for every subject without a dot and every nonzero
timestamp `t`, `parse_token (make_token s t)` recovers `(s, t, sig)` with
`sig` the hex HMAC-SHA256 of `"s:t"` under the server secret.  The two
restrictions are forced: a dotted subject breaks the split
(`parse_make_token_dot_subject`), and `t = 0` is falsy in Python so
`make_token` replaces it by the clock. -/
theorem parse_make_token_roundtrip (s : Str) (t now : Nat)
    (hs : ∀ a ∈ s, a ≠ '.') (ht : t ≠ 0) :
    parse_token (make_token s (some t) now) = some (s, t, tokenSig s t) :=
  make_token_some_parse s t now hs ht

/-- Witness for `parse_make_token_roundtrip` at `s = "alice"`, `t = 7`,
clock `99`. -/
theorem parse_make_token_roundtrip_witness :
    (∀ a ∈ (("alice").data : Str), a ≠ '.') ∧ (7 : Nat) ≠ 0 ∧
      parse_token (make_token (("alice").data) (some 7) 99) =
        some ((("alice").data), 7, tokenSig (("alice").data) 7) :=
  ⟨by decide, by decide, parse_make_token_roundtrip (("alice").data) 7 99 (by decide) (by decide)⟩

/-! ### Claim C5 — cache expiry boundary -/

/-- Claim C5, counterexample: an entry stored at time `0` with `ttl = 10`
(so `expires_at = 10`) is still returned by a `get` at time `10`: the
eviction test is the strict `exp < time.time()`, so at `expires_at` the
subject is returned, not `None` as the claim states. -/
theorem cacheGet_at_expiry_counterexample :
    (cacheGet (cacheSet [] (("t").data) (("alice").data) 10 0) (("t").data) 10).1 =
      some (("alice").data) := by decide

/-- Claim C5 (amended): for an entry stored by `set(token, subject, ttl)`
at time `now` (so `expires_at = now + ttl`), a `get` at time `t` returns
the subject and leaves the cache unchanged whenever `t ≤ expires_at`, and
returns `None` and evicts the entry whenever `expires_at < t`: lazy
eviction on read with the strict condition `expires_at < now`. -/
theorem cacheSet_get_boundary (d : Cache) (k v : Str) (ttl now t : Nat) :
    cacheGet (cacheSet d k v ttl now) k t =
      if now + ttl < t then (none, cacheRemove (cacheSet d k v ttl now) k)
      else (some v, cacheSet d k v ttl now) := by
  simp [cacheGet, cacheSet, cacheLookup]

/-! ### Claim C8 — no shutdown revocation -/

/-- Claim C8, counterexample: a store holding one active row still holds
it, unrevoked, after the lifespan shutdown: nothing follows the `yield`
in `lifespan`, so no bulk revoke happens on shutdown. -/
theorem lifespanShutdown_keeps_active :
    ((lifespanShutdown
        ⟨[], [⟨1, 1, ("t1").data, 0, none⟩], 2⟩).tokens.filter
      (fun r => r.revoked_at.isNone)).length = 1 := by decide

/-- Claim C8 (amended): the identity-service shutdown executes nothing:
the `lifespan` generator has no statement after `yield`, so the token
store is left exactly as it was, and rows active at shutdown stay active
until the next startup run of the boot revoker. -/
theorem lifespanShutdown_id (db : DB) : lifespanShutdown db = db := rfl

/-! ### Claim C2 — fail-closed, cache-is-truth `current_user` -/

/-- Claim C2, counterexample: on a cache miss `current_user` does answer
401 without consulting the token store (here the store holds a
non-revoked row for the presented token `T1`), but the message is
`"Session expired; please login again"` with a capital `S`, not the
lowercase `"session expired; please login again"` stated by the claim. -/
theorem current_user_message_counterexample :
    current_user ⟨some (("Bearer T1").data), none⟩ []
        ⟨[⟨1, ("alice").data, false, [], ("h").data⟩],
         [⟨1, 1, ("T1").data, 0, none⟩], 2⟩ 0 =
      .error (401, msgSessionExpired) ∧
    msgSessionExpired ≠ ("session expired; please login again").data :=
  ⟨by rfl, by decide⟩

/-- Claim C2 (amended): whenever the request carries a (non-falsy) bearer
token whose cache result is falsy — a miss, or a cached empty subject —
`current_user` — and `whoami` with it — fails 401 with
`"Session expired; please login again"` (capital `S`), whatever the
durable token table contains; the durable store is never consulted to
rescue the session (the answer does not depend on the token table at
all), and on a cache hit with a non-empty subject the account is
resolved by the cached subject id. -/
theorem current_user_cache_policy (req : Request) (cache : Cache) (db : DB) (now : Nat)
    (token : Str) (htok : token_from_request req = some token) (hne : token ≠ []) :
    ((cacheGet cache token now).1 = none →
      current_user req cache db now = .error (401, msgSessionExpired) ∧
      whoami req cache db now = .error (401, msgSessionExpired)) ∧
    ((cacheGet cache token now).1 = some [] →
      current_user req cache db now = .error (401, msgSessionExpired) ∧
      whoami req cache db now = .error (401, msgSessionExpired)) ∧
    (∀ tokens' nextId',
      current_user req cache ⟨db.users, tokens', nextId'⟩ now =
        current_user req cache db now) ∧
    (∀ uid u, (cacheGet cache token now).1 = some uid → uid ≠ [] →
      findUser db.users uid = some u →
      current_user req cache db now = .ok u) := by
  refine ⟨fun hmiss => ?_, fun hempty => ?_, fun tokens' nextId' => rfl,
    fun uid u hhit huid hu => ?_⟩
  · constructor
    · simp only [current_user, htok, if_neg hne, hmiss]
    · simp only [whoami, current_user, htok, if_neg hne, hmiss]
      rfl
  · constructor
    · simp [current_user, htok, if_neg hne, hempty]
    · simp [whoami, current_user, htok, if_neg hne, hempty, Except.map]
  · simp only [current_user, htok, if_neg hne, hhit, if_neg huid, hu]

/-- Witness for `current_user_cache_policy`: request with header
`Authorization: Bearer T1`, empty cache, a one-user account table. -/
theorem current_user_cache_policy_witness :
    token_from_request ⟨some (("Bearer T1").data), none⟩ = some (("T1").data) ∧
    (("T1").data : Str) ≠ [] ∧
    (((cacheGet [] (("T1").data) 0).1 = none →
      current_user ⟨some (("Bearer T1").data), none⟩ []
          ⟨[⟨1, ("alice").data, false, [], ("h").data⟩], [], 1⟩ 0 =
        .error (401, msgSessionExpired) ∧
      whoami ⟨some (("Bearer T1").data), none⟩ []
          ⟨[⟨1, ("alice").data, false, [], ("h").data⟩], [], 1⟩ 0 =
        .error (401, msgSessionExpired)) ∧
    ((cacheGet [] (("T1").data) 0).1 = some [] →
      current_user ⟨some (("Bearer T1").data), none⟩ []
          ⟨[⟨1, ("alice").data, false, [], ("h").data⟩], [], 1⟩ 0 =
        .error (401, msgSessionExpired) ∧
      whoami ⟨some (("Bearer T1").data), none⟩ []
          ⟨[⟨1, ("alice").data, false, [], ("h").data⟩], [], 1⟩ 0 =
        .error (401, msgSessionExpired)) ∧
    (∀ tokens' nextId',
      current_user ⟨some (("Bearer T1").data), none⟩ []
          ⟨[⟨1, ("alice").data, false, [], ("h").data⟩], tokens', nextId'⟩ 0 =
        current_user ⟨some (("Bearer T1").data), none⟩ []
          ⟨[⟨1, ("alice").data, false, [], ("h").data⟩], [], 1⟩ 0) ∧
    (∀ uid u, (cacheGet [] (("T1").data) 0).1 = some uid → uid ≠ [] →
      findUser [⟨1, ("alice").data, false, [], ("h").data⟩] uid = some u →
      current_user ⟨some (("Bearer T1").data), none⟩ []
          ⟨[⟨1, ("alice").data, false, [], ("h").data⟩], [], 1⟩ 0 = .ok u)) :=
  ⟨by decide, by decide,
    current_user_cache_policy ⟨some (("Bearer T1").data), none⟩ []
      ⟨[⟨1, ("alice").data, false, [], ("h").data⟩], [], 1⟩ 0 (("T1").data)
      (by decide) (by decide)⟩

/-! ### Claim C7 — edge logout: total, idempotent, failure-absorbing -/

/-- Claim C7: for every resolvable token the edge logout answers
`{ok: true}` and deletes the cache entry, whatever the identity-tier call
did (an `HTTPException` outcome — upstream revoke/prune failure — is
absorbed); a second logout with the same token again answers
`{ok: true}`; and the identity-tier logout endpoint itself answers
`{ok: true}` for known-active, already-revoked and unknown tokens alike. -/
theorem edge_logout_total (bodyToken : Option Str) (req : Request)
    (dbOutcome dbOutcome2 : DbCall Unit) (cache : Cache) (token : Str)
    (hres : resolve_logout_token bodyToken req = some token) :
    edge_logout bodyToken req dbOutcome cache = .ok (true, cacheRemove cache token) ∧
    edge_logout bodyToken req dbOutcome2 (cacheRemove cache token) =
      .ok (true, cacheRemove (cacheRemove cache token) token) ∧
    (∀ db tok now, (db_logout_api db tok now).1 = true) := by
  refine ⟨?_, ?_, fun db tok now => rfl⟩
  · unfold edge_logout
    rw [hres]
    cases dbOutcome <;> rfl
  · unfold edge_logout
    rw [hres]
    cases dbOutcome2 <;> rfl

/-- Witness for `edge_logout_total`: body token `T`, identity tier failing
with 502 on the first call and succeeding on the second. -/
theorem edge_logout_total_witness :
    resolve_logout_token (some (("T").data)) ⟨none, none⟩ = some (("T").data) ∧
    (edge_logout (some (("T").data)) ⟨none, none⟩ (.error 502)
        [((("T").data), ("alice").data, 9)] =
      .ok (true, cacheRemove [((("T").data), ("alice").data, 9)] (("T").data)) ∧
    edge_logout (some (("T").data)) ⟨none, none⟩ (.ok ())
        (cacheRemove [((("T").data), ("alice").data, 9)] (("T").data)) =
      .ok (true, cacheRemove (cacheRemove [((("T").data), ("alice").data, 9)] (("T").data))
        (("T").data)) ∧
    (∀ db tok now, (db_logout_api db tok now).1 = true)) :=
  ⟨by decide,
    edge_logout_total (some (("T").data)) ⟨none, none⟩ (.error 502) (.ok ())
      [((("T").data), ("alice").data, 9)] (("T").data) (by decide)⟩

/-! ### Claims C1 and C10 — login behaviour -/

/-- Verification always succeeds against the digest the vault itself
produced for the same salt and password. -/
theorem verify_password_hash_self (pw : Str) (salt : Bytes) :
    verify_password pw salt (hash_password_digest salt pw) = true := by
  simp [verify_password]

/-- Inversion of a successful identity-tier login: the user was found and
verified, the returned token is `make_token(user_id)` at the current
clock, it was not yet present, and the only change to the store is the
appended active row. -/
theorem db_login_ok_inv (db : DB) (uid pw : Str) (now : Nat) (tok : Str) (db' : DB)
    (h : db_login db uid pw now = .ok (tok, db')) :
    ∃ u, findUser db.users uid = some u ∧
      verify_password pw u.salt_bytes u.pass_hash = true ∧
      tok = make_token u.user_id none now ∧
      db.tokens.any (fun r => r.token == tok) = false ∧
      db'.users = db.users ∧ db'.nextId = db.nextId + 1 ∧
      db'.tokens = db.tokens ++ [⟨db.nextId, u.id, tok, now, none⟩] := by
  unfold db_login at h
  cases hf : findUser db.users uid with
  | none => rw [hf] at h; exact absurd h (by simp)
  | some u =>
    rw [hf] at h
    simp only at h
    cases hv : verify_password pw u.salt_bytes u.pass_hash with
    | false => rw [hv] at h; simp at h
    | true =>
      rw [hv] at h
      simp only [if_true] at h
      cases ha : db.tokens.any (fun r => r.token == make_token u.user_id none now) with
      | true => rw [ha] at h; simp at h
      | false =>
        rw [ha] at h
        simp only [Bool.false_eq_true, if_false, Except.ok.injEq, Prod.mk.injEq] at h
        obtain ⟨htok, hdb⟩ := h
        subst htok
        subst hdb
        exact ⟨u, rfl, hv, rfl, ha, rfl, rfl, rfl⟩

/-- Claim C1 (amended): a successful login revokes nothing and prunes
nothing: it only appends one fresh active row, leaving every existing row
— active rows included — unchanged (the source comments that existing
tokens are deliberately not revoked at login; revocation happens only on
explicit logout or at startup).  Consequently an account accumulates one
active row per login, and the single-active-session invariant does not
hold. -/
theorem db_login_appends_active (db : DB) (uid pw : Str) (now : Nat) (tok : Str) (db' : DB)
    (h : db_login db uid pw now = .ok (tok, db')) :
    ∃ u, findUser db.users uid = some u ∧
      db'.users = db.users ∧
      db'.tokens = db.tokens ++ [⟨db.nextId, u.id, tok, now, none⟩] := by
  obtain ⟨u, hf, _, _, _, hu, _, ht⟩ := db_login_ok_inv db uid pw now tok db' h
  exact ⟨u, hf, hu, ht⟩

/-- The account fixture: `alice` with empty salt and the digest the vault
produces for password `pw`. -/
def aliceStr : Str := ("alice").data

/-- The fixture password. -/
def pwStr : Str := ("pw").data

/-- The fixture user row. -/
def userAlice : User := ⟨1, aliceStr, false, [], hash_password_digest [] pwStr⟩

/-- The fixture store: one account, no tokens. -/
def db0 : DB := ⟨[userAlice], [], 1⟩

/-- The row inserted by a login on `db0` at clock `now`. -/
def loginRow (now : Nat) : AuthToken := ⟨1, 1, make_token aliceStr none now, now, none⟩

/-- The store after a login on `db0` at clock `now`. -/
def dbAfterLogin (now : Nat) : DB := ⟨[userAlice], [loginRow now], 2⟩

/-- Evaluation of the identity-tier login on the fixture store. -/
theorem db_login_db0 (now : Nat) :
    db_login db0 aliceStr pwStr now =
      .ok (make_token aliceStr none now, dbAfterLogin now) := by
  unfold db_login db0 dbAfterLogin loginRow findUser userAlice
  simp [verify_password_hash_self]

/-- The store after logins on `db0` at clock seconds 0 and 1. -/
def dbAfterTwoLogins : DB :=
  ⟨[userAlice], [loginRow 0, ⟨2, 1, make_token aliceStr none 1, 1, none⟩], 3⟩

/-- Claim C1, counterexample: two successful logins for the same account
(at clock seconds 0 and 1) leave the account with two rows whose
`revoked_at` is null — the claimed at-most-one-active invariant fails
after the very second login, because login revokes nothing. -/
theorem two_logins_two_active_rows :
    db_login db0 aliceStr pwStr 0 = .ok (make_token aliceStr none 0, dbAfterLogin 0) ∧
    db_login (dbAfterLogin 0) aliceStr pwStr 1 =
      .ok (make_token aliceStr none 1, dbAfterTwoLogins) ∧
    (activeRowsFor dbAfterTwoLogins.tokens 1).length = 2 := by
  have hne : (make_token aliceStr none 0 == make_token aliceStr none 1) = false :=
    beq_eq_false_iff_ne.mpr
      (fun he => absurd (make_token_now_inj aliceStr (by decide) 0 1 he) (by decide))
  refine ⟨db_login_db0 0, ?_, ?_⟩
  · unfold db_login dbAfterLogin dbAfterTwoLogins loginRow findUser userAlice
    simp [verify_password_hash_self, hne]
  · rfl

/-- Witness for `db_login_appends_active` on the fixture store. -/
theorem db_login_appends_active_witness :
    db_login db0 aliceStr pwStr 0 = .ok (make_token aliceStr none 0, dbAfterLogin 0) ∧
    (∃ u, findUser db0.users aliceStr = some u ∧
      (dbAfterLogin 0).users = db0.users ∧
      (dbAfterLogin 0).tokens = db0.tokens ++
        [⟨db0.nextId, u.id, make_token aliceStr none 0, 0, none⟩]) :=
  ⟨db_login_db0 0,
    db_login_appends_active db0 aliceStr pwStr 0 _ _ (db_login_db0 0)⟩

/-- Claim C10: `make_token` is a pure function of `(subject, second)` —
no randomness — so a second successful login for the same account in the
same clock second would insert the identical token string; the unique
constraint on `AuthToken.token` then rejects the insert and the second
login fails with the uniqueness violation instead of returning a second
distinct token. -/
theorem db_login_same_second_unique (db : DB) (uid pw : Str) (now : Nat)
    (t1 : Str) (dbv : DB) (h : db_login db uid pw now = .ok (t1, dbv)) :
    db_login dbv uid pw now = .error .uniqueViolation := by
  obtain ⟨u, hf, hv, htok, _, husers, _, htoks⟩ := db_login_ok_inv db uid pw now t1 dbv h
  have hany2 : dbv.tokens.any (fun r => r.token == make_token u.user_id none now) = true := by
    rw [htoks, ← htok]
    simp [List.any_append]
  unfold db_login
  rw [husers, hf]
  simp only [hv, if_true, hany2, if_true]

/-- Witness for `db_login_same_second_unique`: both logins at clock 5 on
the fixture store. -/
theorem db_login_same_second_unique_witness :
    db_login db0 aliceStr pwStr 5 = .ok (make_token aliceStr none 5, dbAfterLogin 5) ∧
    db_login (dbAfterLogin 5) aliceStr pwStr 5 = .error .uniqueViolation :=
  ⟨db_login_db0 5,
    db_login_same_second_unique db0 aliceStr pwStr 5 _ _ (db_login_db0 5)⟩

/-! ### Claim C3 — BootRevoker startup postcondition -/

theorem revokeAllActive_not_none (ts : List AuthToken) (now : Nat) :
    ∀ r ∈ revokeAllActive ts now, r.revoked_at ≠ none := by
  intro r hr
  rcases List.mem_map.mp hr with ⟨s, _, rfl⟩
  cases hrev : s.revoked_at with
  | none => simp [hrev]
  | some v => simp [hrev]

theorem revokeAllActive_ids (ts : List AuthToken) (now : Nat) :
    (revokeAllActive ts now).map (fun r => r.id) = ts.map (fun r => r.id) := by
  simp only [revokeAllActive, List.map_map]
  apply List.map_congr_left
  intro r _
  cases hrev : r.revoked_at <;> simp [hrev]

theorem pruneU_sublist (ts : List AuthToken) (fk : Nat) :
    List.Sublist (pruneU ts fk) ts := by
  cases h : pruneKeep ts fk with
  | none => simp only [pruneU, h]; exact List.Sublist.refl ts
  | some keep => simp only [pruneU, h]; exact List.filter_sublist ts

theorem foldl_pruneU_sublist (L : List Nat) (ts : List AuthToken) :
    List.Sublist (L.foldl pruneU ts) ts := by
  induction L generalizing ts with
  | nil => exact List.Sublist.refl ts
  | cons u L ih =>
    simp only [List.foldl_cons]
    exact (ih (pruneU ts u)).trans (pruneU_sublist ts u)

theorem count_le_one_of_ids (l : List AuthToken)
    (hnd : (l.map (fun r => r.id)).Nodup) (k : Nat) (p : AuthToken → Bool)
    (hp : ∀ r ∈ l, p r = true → r.id = k) : (l.filter p).length ≤ 1 := by
  induction l with
  | nil => simp
  | cons a l ih =>
    rw [List.map_cons, List.nodup_cons] at hnd
    obtain ⟨hna, hnd'⟩ := hnd
    by_cases hpa : p a = true
    · rw [List.filter_cons_of_pos hpa]
      have hk : a.id = k := hp a (List.mem_cons_self a l) hpa
      have hnil : l.filter p = [] := by
        apply List.filter_eq_nil_iff.mpr
        intro r hr hpr
        exact absurd
          (List.mem_map.mpr ⟨r, hr, (hp r (List.mem_cons_of_mem a hr) hpr).trans hk.symm⟩)
          hna
      rw [hnil]
      simp
    · rw [List.filter_cons_of_neg (by simpa using hpa)]
      exact ih hnd' (fun r hr hpr => hp r (List.mem_cons_of_mem a hr) hpr)

theorem isSome_of_ne_none (o : Option Nat) (h : o ≠ none) : o.isSome = true := by
  cases o with
  | none => exact absurd rfl h
  | some v => rfl

theorem pruneU_count_le_one (ts : List AuthToken) (fk : Nat)
    (hrev : ∀ r ∈ ts, r.revoked_at ≠ none)
    (hnd : (ts.map (fun r => r.id)).Nodup) :
    ((pruneU ts fk).filter (fun r => r.user_id_fk == fk)).length ≤ 1 := by
  cases h : pruneKeep ts fk with
  | none =>
    have hrv : revokedRowsFor ts fk = [] := by
      cases hrv : revokedRowsFor ts fk with
      | nil => rfl
      | cons x xs =>
        simp only [pruneKeep, hrv] at h
        exact Option.noConfusion h
    simp only [pruneU, h]
    have hnil : ts.filter (fun r => r.user_id_fk == fk) = [] := by
      apply List.filter_eq_nil_iff.mpr
      intro r hrts hfk
      have hsome := isSome_of_ne_none _ (hrev r hrts)
      have hmem : r ∈ revokedRowsFor ts fk :=
        List.mem_filter.mpr ⟨hrts, by simp [hfk, hsome]⟩
      rw [hrv] at hmem
      simp at hmem
    rw [hnil]
    simp
  | some keep =>
    simp only [pruneU, h]
    apply count_le_one_of_ids
    · exact hnd.sublist ((List.filter_sublist ts).map _)
    · intro r hr hpr
      obtain ⟨hrts, hsur⟩ := List.mem_filter.mp hr
      have hsome := isSome_of_ne_none _ (hrev r hrts)
      simp [hpr, hsome] at hsur
      exact hsur

theorem foldl_pruneU_bound (L : List Nat) (ts : List AuthToken)
    (hrev : ∀ r ∈ ts, r.revoked_at ≠ none)
    (hnd : (ts.map (fun r => r.id)).Nodup) :
    ∀ fk ∈ L, ((L.foldl pruneU ts).filter (fun r => r.user_id_fk == fk)).length ≤ 1 := by
  induction L generalizing ts with
  | nil => intro fk hfk; simp at hfk
  | cons u L ih =>
    intro fk hfk
    have hsub : List.Sublist (pruneU ts u) ts := pruneU_sublist ts u
    have hrev' : ∀ r ∈ pruneU ts u, r.revoked_at ≠ none :=
      fun r hr => hrev r (hsub.subset hr)
    have hnd' : ((pruneU ts u).map (fun r => r.id)).Nodup := hnd.sublist (hsub.map _)
    simp only [List.foldl_cons]
    rcases List.mem_cons.mp hfk with rfl | hfk'
    · have h1 := pruneU_count_le_one ts fk hrev hnd
      have h2 : List.Sublist (L.foldl pruneU (pruneU ts fk)) (pruneU ts fk) :=
        foldl_pruneU_sublist L _
      exact le_trans ((h2.filter _).length_le) h1
    · exact ih (pruneU ts u) hrev' hnd' fk hfk'

/-- Claim C3: after the identity-service startup (`lifespan` before the
`yield`), every surviving row is a row of the bulk-update image (actives
got `revoked_at = now`, the rest kept theirs), no surviving row is
active, and each account retains at most one row — the prune deleted all
revoked rows except the first under `(revoked_at desc, id desc)`.  The
`Nodup` hypothesis is the primary-key uniqueness of `AuthToken.id`. -/
theorem lifespanStartup_postcondition (db : DB) (now : Nat)
    (hnd : (db.tokens.map (fun r => r.id)).Nodup) :
    (∀ r ∈ (lifespanStartup db now).tokens, r ∈ revokeAllActive db.tokens now) ∧
    (∀ r ∈ (lifespanStartup db now).tokens, r.revoked_at ≠ none) ∧
    (∀ fk, ((lifespanStartup db now).tokens.filter
      (fun r => r.user_id_fk == fk)).length ≤ 1) := by
  have hrev := revokeAllActive_not_none db.tokens now
  have hnd2 : ((revokeAllActive db.tokens now).map (fun r => r.id)).Nodup := by
    rw [revokeAllActive_ids]; exact hnd
  have hsub : List.Sublist
      ((distinctFks (revokeAllActive db.tokens now)).foldl pruneU
        (revokeAllActive db.tokens now))
      (revokeAllActive db.tokens now) := foldl_pruneU_sublist _ _
  simp only [lifespanStartup]
  refine ⟨fun r hr => hsub.subset hr, fun r hr => hrev r (hsub.subset hr), fun fk => ?_⟩
  by_cases hin : fk ∈ distinctFks (revokeAllActive db.tokens now)
  · exact foldl_pruneU_bound _ _ hrev hnd2 fk hin
  · have hnofk : ∀ r ∈ revokeAllActive db.tokens now, ¬ (r.user_id_fk == fk) = true := by
      intro r hr hfk
      exact hin (List.mem_dedup.mpr (List.mem_map.mpr ⟨r, hr, by simpa using hfk⟩))
    have hbase : (revokeAllActive db.tokens now).filter
        (fun r => r.user_id_fk == fk) = [] := List.filter_eq_nil_iff.mpr hnofk
    have hle := ((hsub.filter (fun r => r.user_id_fk == fk)).length_le)
    rw [hbase] at hle
    simpa using le_trans hle (by simp)

/-- The fixture store for the startup witness: two accounts, one with an
already-revoked and an active row, one with two active rows. -/
def dbBoot : DB :=
  ⟨[], [⟨1, 1, ("t1").data, 0, some 5⟩, ⟨2, 1, ("t2").data, 1, none⟩,
        ⟨3, 2, ("t3").data, 2, none⟩, ⟨4, 2, ("t4").data, 3, none⟩], 5⟩

/-- Witness for `lifespanStartup_postcondition` on `dbBoot` at clock 9. -/
theorem lifespanStartup_postcondition_witness :
    (dbBoot.tokens.map (fun r => r.id)).Nodup ∧
    ((∀ r ∈ (lifespanStartup dbBoot 9).tokens, r ∈ revokeAllActive dbBoot.tokens 9) ∧
     (∀ r ∈ (lifespanStartup dbBoot 9).tokens, r.revoked_at ≠ none) ∧
     (∀ fk, ((lifespanStartup dbBoot 9).tokens.filter
       (fun r => r.user_id_fk == fk)).length ≤ 1)) :=
  ⟨by decide, lifespanStartup_postcondition dbBoot 9 (by decide)⟩

/-! ### Claim C4 — the logout-time prune

The session is created with `autoflush=False` (`session.py`), so in
`db_api/auth.py` `logout` the ORM assignment `row.revoked_at = utcnow()`
is still unflushed when the prune SELECT runs: the prune ranks only the
rows already revoked in the database snapshot, and the freshly revoked
row is flushed afterwards, at commit.  Logging out an *active* token
while an older revoked row exists therefore leaves two revoked rows,
contrary to the claim (and to the source's own comment "prune: keep only
most-recent revoked for this user"). -/

/-- Claim C4, evaluation at the failing input: account 1 holds row 1
(revoked at 5) and row 2 (active, token `t2`).  `logout("t2")` at clock
10 leaves two revoked rows for the account: the prune kept row 1 — the
only row revoked in the snapshot — and the revocation of row 2 was
flushed after the prune. -/
theorem db_logout_active_leaves_two_revoked :
    (revokedRowsFor
      ((db_logout
        ⟨[], [⟨1, 1, ("t1").data, 0, some 5⟩, ⟨2, 1, ("t2").data, 1, none⟩], 3⟩
        (("t2").data) 10).tokens) 1).length = 2 := by decide

/-! ### Claim C9 — refresh fallback mints with the TTL as timestamp -/

/-- The `if not new_token` test of `refresh_token` over the identity-tier
outcome: `true` exactly when the call raised or returned no token. -/
def noTokenFromDb : DbCall (Option Str) → Bool
  | .ok (some _) => false
  | .ok none => true
  | .error _ => true

/-- Claim C9: whenever the edge `refresh` takes its local-fallback path
(the identity-tier call raised or returned no token — which it does for
every account whose real password is non-empty, since `refresh` forwards
`password=""`), the token it returns is `make_token(user_id, 3600)`: the
TTL constant is passed in the `ts` position, so for a dot-free subject
the `issued_at` field parsed back out of the fallback token is always
`3600`, never the current clock. -/
theorem refresh_fallback_token (req : Request) (user : User) (cache : Cache)
    (dbRes : DbCall (Option Str)) (now : Nat) (tk : Str) (ttl : Nat) (c' : Cache)
    (hdb : noTokenFromDb dbRes = true)
    (h : refresh_token req user cache dbRes now = .ok (tk, ttl, c')) :
    tk = make_token user.user_id (some 3600) now ∧ ttl = 3600 ∧
    ((∀ a ∈ user.user_id, a ≠ '.') →
      parse_token tk = some (user.user_id, 3600, tokenSig user.user_id 3600)) := by
  unfold refresh_token at h
  cases hres : refresh_resolve req with
  | none => rw [hres] at h; exact absurd h (by simp)
  | some token =>
    rw [hres] at h
    simp only at h
    cases hget : cacheGet cache token now with
    | mk fst snd =>
      rw [hget] at h
      cases fst with
      | none => exact absurd h (by simp)
      | some cached_uid =>
        simp only at h
        by_cases hcond : cached_uid = [] ∨ cached_uid ≠ user.user_id
        · rw [if_pos hcond] at h; exact absurd h (by simp)
        · rw [if_neg hcond] at h
          cases dbRes with
          | ok o =>
            cases o with
            | some t => exact absurd hdb (by simp [noTokenFromDb])
            | none =>
              simp only [Except.ok.injEq, Prod.mk.injEq] at h
              obtain ⟨h1, h2, _⟩ := h
              subst h1
              exact ⟨rfl, h2.symm,
                fun hdot => make_token_some_parse _ 3600 now hdot (by decide)⟩
          | error e =>
            simp only [Except.ok.injEq, Prod.mk.injEq] at h
            obtain ⟨h1, h2, _⟩ := h
            subst h1
            exact ⟨rfl, h2.symm,
              fun hdot => make_token_some_parse _ 3600 now hdot (by decide)⟩

/-- The request fixture for the refresh witness: token in the cookie. -/
def reqRefreshW : Request := ⟨none, some (("T1").data)⟩

/-- The cache fixture for the refresh witness: `T1 ↦ (alice, exp 100)`. -/
def cacheRefreshW : Cache := [((("T1").data), aliceStr, 100)]

/-- Witness for `refresh_fallback_token`: identity tier down (502), cache
holding `T1` for `alice`, clock 0. -/
theorem refresh_fallback_token_witness :
    noTokenFromDb (.error 502) = true ∧
    refresh_token reqRefreshW userAlice cacheRefreshW (.error 502) 0 =
      .ok (make_token aliceStr (some 3600) 0, 3600,
        cacheSet (cacheRemove cacheRefreshW (("T1").data))
          (make_token aliceStr (some 3600) 0) aliceStr 3600 0) ∧
    (make_token aliceStr (some 3600) 0 = make_token userAlice.user_id (some 3600) 0 ∧
      (3600 : Nat) = 3600 ∧
      ((∀ a ∈ userAlice.user_id, a ≠ '.') →
        parse_token (make_token aliceStr (some 3600) 0) =
          some (userAlice.user_id, 3600, tokenSig userAlice.user_id 3600))) :=
  ⟨rfl, rfl,
    refresh_fallback_token reqRefreshW userAlice cacheRefreshW (.error 502) 0
      (make_token aliceStr (some 3600) 0) 3600
      (cacheSet (cacheRemove cacheRefreshW (("T1").data))
        (make_token aliceStr (some 3600) 0) aliceStr 3600 0) rfl rfl⟩

end SVH
